import Mathlib

set_option autoImplicit false

/-
Shallow embedding of the Mailrify SDK HTTP dispatch core
(src/client.ts, src/config.ts, src/errors.ts) in Lean 4.

JavaScript numbers are modelled by `JSNum` (an integer, NaN, or an
infinity); JavaScript thrown values by `Thrown`, which mirrors the
`MailrifyError` class hierarchy together with foreign `Error`s and
non-`Error` thrown values.  Header containers are association lists with
case-insensitive (lower-cased) keys, matching the `Headers` web API used
by the code.
-/

namespace Mailrify

/-- Model of a JavaScript number: NaN, the two infinities, or a finite
number (an integer: every number the SDK computes with is integral). -/
inductive JSNum where
  | nan
  | posInf
  | negInf
  | num (q : ℤ)
deriving DecidableEq, Repr

/-- JavaScript `Number.isFinite`. -/
def JSNum.isFinite : JSNum → Bool
  | .num _ => true
  | _ => false

/-- JavaScript `<` on numbers (false whenever either side is NaN). -/
def JSNum.lt : JSNum → JSNum → Bool
  | .num a, .num b => a < b
  | .nan, _ => false
  | _, .nan => false
  | .negInf, .negInf => false
  | .negInf, _ => true
  | _, .negInf => false
  | .posInf, _ => false
  | .num _, .posInf => true

/-- JavaScript `<=` on numbers (false whenever either side is NaN). -/
def JSNum.le : JSNum → JSNum → Bool
  | .num a, .num b => a ≤ b
  | .nan, _ => false
  | _, .nan => false
  | .negInf, _ => true
  | _, .negInf => false
  | _, .posInf => true
  | .posInf, .num _ => false

/-- JavaScript truthiness of a number: false for `0` and `NaN`. -/
def JSNum.truthy : JSNum → Bool
  | .nan => false
  | .num q => q ≠ 0
  | _ => true

/-- JavaScript `*` on numbers, restricted to the cases the SDK exercises
(NaN is absorbing; finite times finite is exact). -/
def JSNum.mul : JSNum → JSNum → JSNum
  | .num a, .num b => .num (a * b)
  | .nan, _ => .nan
  | _, .nan => .nan
  | .posInf, .posInf => .posInf
  | .posInf, .negInf => .negInf
  | .negInf, .posInf => .negInf
  | .negInf, .negInf => .posInf
  | .posInf, .num q => if q > 0 then .posInf else if q < 0 then .negInf else .nan
  | .num q, .posInf => if q > 0 then .posInf else if q < 0 then .negInf else .nan
  | .negInf, .num q => if q > 0 then .negInf else if q < 0 then .posInf else .nan
  | .num q, .negInf => if q > 0 then .negInf else if q < 0 then .posInf else .nan

/-- The error payload shape `MailrifyErrorPayload` from src/errors.ts
(the `details` field is modelled as an opaque string). -/
structure ErrPayload where
  message : Option String := none
  error : Option String := none
  code : Option String := none
  details : Option String := none
deriving DecidableEq, Repr

/-- The `details` value stored on a built error: either the payload's own
`details` field or the whole parsed payload (`payload?.details ?? payload`). -/
inductive DetailsVal where
  | fromField (s : String)
  | wholePayload (p : ErrPayload)
deriving DecidableEq, Repr

/-- The shared diagnostic fields (`status`, `code`, `details`, `requestId`)
carried by every HTTP-derived error built by `HttpClient.buildError`. -/
structure ErrInfo where
  status : Nat
  code : Option String := none
  details : Option DetailsVal := none
  requestId : Option String := none
deriving DecidableEq, Repr

/-- A JavaScript thrown value, as classified by the `instanceof` checks in
`HttpClient.shouldRetry`: the `MailrifyError` hierarchy of src/errors.ts,
a foreign `Error` outside the hierarchy, or a non-`Error` value. -/
inductive Thrown where
  | rateLimitError (message : String) (info : ErrInfo) (retryAfter : Option JSNum)
  | authError (message : String) (info : ErrInfo)
  | httpError (message : String) (info : ErrInfo)
  | validationError (message : String) (status : Nat)
  | mailrifyError (message : String)
  | foreignError (message : String)
  | nonErrorValue
deriving DecidableEq, Repr

/-- `error instanceof RateLimitError`. -/
def Thrown.isRateLimitError : Thrown → Bool
  | .rateLimitError _ _ _ => true
  | _ => false

/-- `error instanceof HTTPError` (RateLimitError and AuthError extend HTTPError). -/
def Thrown.isHTTPError : Thrown → Bool
  | .rateLimitError _ _ _ => true
  | .authError _ _ => true
  | .httpError _ _ => true
  | _ => false

/-- `error instanceof MailrifyError` (every class of src/errors.ts). -/
def Thrown.isMailrifyError : Thrown → Bool
  | .rateLimitError _ _ _ => true
  | .authError _ _ => true
  | .httpError _ _ => true
  | .validationError _ _ => true
  | .mailrifyError _ => true
  | _ => false

/-- `error instanceof Error` (true for everything but a thrown non-Error value). -/
def Thrown.isJsError : Thrown → Bool
  | .nonErrorValue => false
  | _ => true

/-- The `status` field read by `shouldRetry` on an `HTTPError` instance. -/
def Thrown.httpStatus : Thrown → Nat
  | .rateLimitError _ info _ => info.status
  | .authError _ info => info.status
  | .httpError _ info => info.status
  | _ => 0

/-- The `retryAfter` field of a `RateLimitError` (absent on everything else,
mirroring the property access `error.retryAfter` guarded by `instanceof`). -/
def Thrown.retryAfterField : Thrown → Option JSNum
  | .rateLimitError _ _ ra => ra
  | _ => none

/-- The `message` carried by a thrown value. -/
def Thrown.messageOf : Thrown → String
  | .rateLimitError m _ _ => m
  | .authError m _ => m
  | .httpError m _ => m
  | .validationError m _ => m
  | .mailrifyError m => m
  | .foreignError m => m
  | .nonErrorValue => ""

/-- The HTTP methods of src/client.ts. -/
inductive HttpMethod where
  | GET | POST | PUT | PATCH | DELETE | HEAD
deriving DecidableEq, Repr

/-- Retry budget from `HttpClient.request`:
`options.idempotent === false ? 0 : this.config.retry.maxRetries`. -/
def retryBudget (idempotent : Option Bool) (cfgMaxRetries : Nat) : Nat :=
  if idempotent = some false then 0 else cfgMaxRetries

/-- Faithful translation of `HttpClient.shouldRetry` (src/client.ts). -/
def shouldRetry (method : HttpMethod) (error : Thrown) (idempotent : Option Bool)
    (attempt maxRetries : Nat) : Bool :=
  if attempt ≥ maxRetries then
    false
  else
    let isIdempotent := idempotent.getD (method = .GET || method = .HEAD)
    if !isIdempotent then
      false
    else if error.isRateLimitError then
      true
    else if error.isHTTPError then
      decide (error.httpStatus ≥ 500)
    else if error.isMailrifyError then
      false
    else
      true

/-- Faithful translation of `HttpClient.getRetryDelay` (src/client.ts):
`error instanceof RateLimitError && error.retryAfter` is a truthiness test. -/
def getRetryDelay (retryDelayMs : ℤ) (error : Thrown) (attempt : Nat) : JSNum :=
  match error.retryAfterField with
  | some ra => if ra.truthy then ra else .num (retryDelayMs * 2 ^ attempt)
  | none => .num (retryDelayMs * 2 ^ attempt)

/-- Whether `HttpClient.delay` suspends: it returns immediately when
`durationMs <= 0` and otherwise awaits a timer. -/
def delaySuspends (durationMs : JSNum) : Bool :=
  if durationMs.le (.num 0) then false else true

/-- The options record accepted by the `MailrifyError` constructors. -/
structure MailrifyErrorOptions where
  status : Option Nat := none
  code : Option String := none
  details : Option String := none
  requestId : Option String := none
deriving DecidableEq, Repr

/-- An instance of a class from src/errors.ts, as the fields set by its
constructor. -/
structure ErrorInstance where
  name : String
  message : String
  status : Option Nat
  code : Option String
  details : Option String
  requestId : Option String
deriving DecidableEq, Repr

/-- The `MailrifyError` constructor (src/errors.ts). -/
def mkMailrifyError (message : String) (options : MailrifyErrorOptions) : ErrorInstance :=
  { name := "MailrifyError"
    message := message
    status := options.status
    code := options.code
    details := options.details
    requestId := options.requestId }

/-- The `ValidationError` constructor (src/errors.ts): it forwards to
`MailrifyError` with `status: options.status ?? 400` and renames itself. -/
def mkValidationError (message : String) (options : MailrifyErrorOptions) : ErrorInstance :=
  { mkMailrifyError message { options with status := some (options.status.getD 400) } with
    name := "ValidationError" }

/-- ASCII lower-casing of a string, the key normalization of the `Headers`
web API. -/
def lowerStr (s : String) : String :=
  ⟨s.data.map Char.toLower⟩

/-- Case-insensitive lookup in a header list, as `Headers.get`. -/
def headersGet (hs : List (String × String)) (k : String) : Option String :=
  (hs.find? (fun p => lowerStr p.1 = lowerStr k)).map (·.2)

/-- `Headers.set`: keys are stored lower-cased; an existing entry is
overwritten in place, otherwise the pair is appended. -/
def headersSet (hs : List (String × String)) (k v : String) : List (String × String) :=
  let kl := lowerStr k
  if hs.any (fun p => p.1 = kl) then
    hs.map (fun p => if p.1 = kl then (kl, v) else p)
  else
    hs ++ [(kl, v)]

/-- Header lists whose keys are already lower-cased: the invariant of every
header list a `Headers` object can reach, since `set` normalizes keys. -/
def KeysLower (hs : List (String × String)) : Prop :=
  ∀ p ∈ hs, p.1 = lowerStr p.1

/-- The last value in `l` associated (case-insensitively) to key `k`:
the value `Object.entries`-then-`set` iteration leaves in a `Headers`
object for that key. -/
def lastAssocCI (l : List (String × String)) (k : String) : Option String :=
  (l.reverse.find? (fun p => lowerStr p.1 = lowerStr k)).map (·.2)

/-- A received HTTP response: status, headers and body text. -/
structure Response where
  status : Nat
  headers : List (String × String)
  bodyText : String
deriving DecidableEq, Repr

/-- `Response.ok`: status in the inclusive range 200–299. -/
def responseOk (r : Response) : Bool :=
  decide (200 ≤ r.status) && decide (r.status ≤ 299)

/-- Whether `pre` is a prefix of `l`. -/
def listStartsWith : List Char → List Char → Bool
  | [], _ => true
  | _ :: _, [] => false
  | a :: as, b :: bs => a = b && listStartsWith as bs

/-- Whether `pat` occurs as a contiguous run inside the second list. -/
def listContainsSub (pat : List Char) : List Char → Bool
  | [] => pat.isEmpty
  | c :: rest => listStartsWith pat (c :: rest) || listContainsSub pat rest

/-- JavaScript `String.prototype.includes`. -/
def includesStr (s pat : String) : Bool :=
  listContainsSub pat.data s.data

/-- Leading decimal digits of a character list, if any. -/
def leadingDigits (cs : List Char) : Option Nat :=
  let ds := cs.takeWhile Char.isDigit
  if ds.isEmpty then none
  else some (ds.foldl (fun acc c => acc * 10 + (c.toNat - '0'.toNat)) 0)

/-- JavaScript `Number.parseInt(s, 10)`: skip leading whitespace, read an
optional sign and then the longest run of decimal digits; NaN when no
digit follows. -/
def parseIntJS (s : String) : JSNum :=
  let cs := s.data.dropWhile (fun c => c = ' ' ∨ c = '\t' ∨ c = '\n' ∨ c = '\r')
  match cs with
  | '+' :: rest =>
    match leadingDigits rest with
    | some n => .num n
    | none => .nan
  | '-' :: rest =>
    match leadingDigits rest with
    | some n => .num (-(n : ℤ))
    | none => .nan
  | _ =>
    match leadingDigits cs with
    | some n => .num n
    | none => .nan

/-- Faithful translation of `HttpClient.safeParseError` (src/client.ts).
The JSON decoder is a parameter; it returns `none` when `response.json()`
would throw (the surrounding try/catch turns that into an absent payload). -/
def safeParseError (decodeErrPayload : String → Option ErrPayload) (r : Response) :
    Option ErrPayload :=
  let contentType := (headersGet r.headers "content-type").getD ""
  if includesStr contentType "application/json" then
    decodeErrPayload r.bodyText
  else if r.bodyText = "" then
    none
  else
    some { message := some r.bodyText }

/-- `payload?.details ?? payload` from `HttpClient.buildError`. -/
def detailsOf : Option ErrPayload → Option DetailsVal
  | none => none
  | some p =>
    match p.details with
    | some d => some (.fromField d)
    | none => some (.wholePayload p)

/-- Faithful translation of `HttpClient.buildError` (src/client.ts):
classification of a non-success response into the typed error hierarchy.
`pathname` stands for `context.url.pathname`. -/
def buildError (decodeErrPayload : String → Option ErrPayload) (r : Response)
    (pathname : String) : Thrown :=
  let payload := safeParseError decodeErrPayload r
  let requestId := headersGet r.headers "x-request-id"
  let info : ErrInfo :=
    { status := r.status
      code := payload.bind (·.code)
      details := detailsOf payload
      requestId := requestId }
  if r.status = 401 ∨ r.status = 403 then
    .authError
      (((payload.bind (·.message)).orElse (fun _ => payload.bind (·.error))).getD
        "Unauthorized request.")
      info
  else if r.status = 429 then
    let retryAfterHeader := headersGet r.headers "retry-after"
    let retryAfter : Option JSNum :=
      match retryAfterHeader with
      | some h => if h = "" then none else some ((parseIntJS h).mul (.num 1000))
      | none => none
    .rateLimitError ((payload.bind (·.message)).getD "Rate limit exceeded.") info retryAfter
  else
    .httpError
      (((payload.bind (·.message)).orElse (fun _ => payload.bind (·.error))).getD
        ("Request to " ++ pathname ++ " failed with status " ++ toString r.status ++ "."))
      info

/-- A parsed response body: a JSON-decoded value or raw text. -/
inductive ParsedBody (α : Type) where
  | jsonVal (a : α)
  | textVal (s : String)
deriving DecidableEq, Repr

/-- Faithful translation of `HttpClient.parseResponse` (src/client.ts).
The JSON decoder is a parameter standing for `response.json()`. -/
def parseResponse {α : Type} (decodeJson : String → α) (r : Response) :
    Option (ParsedBody α) :=
  if r.status = 204 ∨ headersGet r.headers "content-length" = some "0" then
    none
  else
    let contentType := (headersGet r.headers "content-type").getD ""
    if includesStr contentType "application/json" then
      some (.jsonVal (decodeJson r.bodyText))
    else if r.bodyText = "" then
      none
    else
      some (.textVal r.bodyText)

/-- The final-response step of `HttpClient.dispatch` (src/client.ts, after
interceptors ran): a non-ok status raises the typed error built by
`buildError`, otherwise the parsed body is returned. -/
def dispatchFinal {α : Type} (decodeJson : String → α)
    (decodeErrPayload : String → Option ErrPayload) (r : Response) (pathname : String) :
    Except Thrown (Option (ParsedBody α)) :=
  if !responseOk r then
    .error (buildError decodeErrPayload r pathname)
  else
    .ok (parseResponse decodeJson r)

/-- Remove all trailing `/` characters (the regex `replace(/\/+$/, '')`,
also used with `/\/*$/` in `buildUrl`). -/
def stripTrailingSlashes (s : String) : String :=
  ⟨(s.data.reverse.dropWhile (fun c => c = '/')).reverse⟩

/-- Default base URL from src/config.ts. -/
def DEFAULT_BASE_URL : String := "https://app.mailrify.com/api"

/-- Default timeout in milliseconds from src/config.ts. -/
def DEFAULT_TIMEOUT : JSNum := .num 30000

/-- Default maximum retry count from src/config.ts. -/
def DEFAULT_MAX_RETRIES : JSNum := .num 2

/-- Default retry base delay in milliseconds from src/config.ts. -/
def DEFAULT_RETRY_DELAY : JSNum := .num 500

/-- The user-supplied `ClientConfig` of src/config.ts, under its TypeScript
types (so a present `baseUrl` is always a string, which renders the
`typeof config.baseUrl !== 'string'` arm of `validateConfig` vacuous).
The transport function is modelled by its presence (`Option Unit`). -/
structure ClientConfig where
  apiKey : String
  baseUrl : Option String := none
  timeout : Option JSNum := none
  maxRetries : Option JSNum := none
  retryDelayMs : Option JSNum := none
  fetchImpl : Option Unit := none
  headers : List (String × String) := []
  debug : Bool := false
  userAgent : Option String := none
deriving DecidableEq, Repr

/-- JavaScript `String.prototype.trim`: strip leading and trailing
whitespace. -/
def trimStr (s : String) : String :=
  ⟨((s.data.dropWhile Char.isWhitespace).reverse.dropWhile Char.isWhitespace).reverse⟩

/-- Faithful translation of `validateConfig` (src/config.ts); the error
string is the `ValidationError` message. -/
def validateConfig (c : ClientConfig) : Except String Unit :=
  if c.apiKey = "" ∨ (trimStr c.apiKey).length = 0 then
    .error "Mailrify client requires a non-empty apiKey."
  else if match c.timeout with
          | some t => !t.isFinite || t.le (.num 0)
          | none => false then
    .error "timeout must be a positive number when provided."
  else if match c.maxRetries with
          | some m => m.lt (.num 0)
          | none => false then
    .error "maxRetries cannot be negative."
  else if match c.retryDelayMs with
          | some d => d.lt (.num 0)
          | none => false then
    .error "retryDelayMs cannot be negative."
  else
    .ok ()

/-- The fully resolved configuration of src/config.ts (transport presence
and interceptors are carried elsewhere in the embedding). -/
structure ResolvedClientConfig where
  apiKey : String
  baseUrl : String
  timeout : JSNum
  headers : List (String × String)
  debug : Bool
  maxRetries : JSNum
  retryDelayMs : JSNum
  userAgent : Option String
deriving DecidableEq, Repr

/-- A configuration-time failure: a thrown `ValidationError`, or the plain
`Error` thrown for a missing transport. -/
inductive ConfigError where
  | validation (message : String)
  | plainError (message : String)
deriving DecidableEq, Repr

/-- Whether a configuration failure is a `ValidationError`. -/
def ConfigError.isValidation : ConfigError → Bool
  | .validation _ => true
  | .plainError _ => false

/-- Faithful translation of `resolveConfig` (src/config.ts).
`ambientFetch` stands for `globalThis.fetch`. -/
def resolveConfig (ambientFetch : Option Unit) (c : ClientConfig) :
    Except ConfigError ResolvedClientConfig :=
  match validateConfig c with
  | .error m => .error (.validation m)
  | .ok _ =>
    let baseUrl :=
      match c.baseUrl with
      | some b => stripTrailingSlashes b
      | none => DEFAULT_BASE_URL
    let fetchImpl := c.fetchImpl.orElse (fun _ => ambientFetch)
    match fetchImpl with
    | none =>
      .error (.plainError "A fetch implementation is required (Node 18+ provides a global fetch).")
    | some _ =>
      .ok
        { apiKey := c.apiKey
          baseUrl := baseUrl
          timeout := c.timeout.getD DEFAULT_TIMEOUT
          headers := c.headers
          debug := c.debug
          maxRetries := c.maxRetries.getD DEFAULT_MAX_RETRIES
          retryDelayMs := c.retryDelayMs.getD DEFAULT_RETRY_DELAY
          userAgent := c.userAgent }

/-- The `HttpClient` constructor (src/client.ts): it calls `resolveConfig`
immediately, so configuration failures happen at construction time. -/
def constructHttpClient (ambientFetch : Option Unit) (c : ClientConfig) :
    Except ConfigError ResolvedClientConfig :=
  resolveConfig ambientFetch c

/-- Faithful translation of `HttpClient.buildHeaders` (src/client.ts).
`navigatorDefined` stands for `typeof navigator !== 'undefined'`. -/
def buildHeaders (cfg : ResolvedClientConfig) (navigatorDefined : Bool)
    (overrideHeaders : Option (List (String × String))) : List (String × String) :=
  let hs := headersSet [] "Accept" "application/json"
  let hs := cfg.headers.foldl (fun h p => headersSet h p.1 p.2) hs
  let hs := headersSet hs "authorization" ("Bearer " ++ cfg.apiKey)
  let hs := headersSet hs "x-mailrify-client" "mailrify"
  let hs :=
    match cfg.userAgent with
    | some ua => if ua ≠ "" && !navigatorDefined then headersSet hs "user-agent" ua else hs
    | none => hs
  match overrideHeaders with
  | some ov => ov.foldl (fun h p => headersSet h p.1 p.2) hs
  | none => hs

/-- Stage decomposition of `buildHeaders`: the header list after the
default Accept header, the configured static extra headers, and the forced
authorization and client-identity headers, in that order. -/
def forcedHeaders (cfg : ResolvedClientConfig) : List (String × String) :=
  headersSet
    (headersSet
      (cfg.headers.foldl (fun h p => headersSet h p.1 p.2)
        (headersSet [] "Accept" "application/json"))
      "authorization" ("Bearer " ++ cfg.apiKey))
    "x-mailrify-client" "mailrify"

/-- Stage decomposition of `buildHeaders`: the headers after the
conditional user-agent step. -/
def uaHeaders (cfg : ResolvedClientConfig) (navigatorDefined : Bool) : List (String × String) :=
  match cfg.userAgent with
  | some ua =>
    if ua ≠ "" && !navigatorDefined then headersSet (forcedHeaders cfg) "user-agent" ua
    else forcedHeaders cfg
  | none => forcedHeaders cfg

/-- A URL as the components `buildUrl` manipulates: origin, pathname,
query parameters (in order) and fragment. -/
structure URL where
  origin : String
  pathname : String
  searchParams : List (String × String)
  hash : String
deriving DecidableEq, Repr

/-- The regex `replace(/\/\x7b2,\x7d/g, '/')`: collapse every run of two or
more consecutive slashes into one. -/
def collapseSlashes : List Char → List Char
  | [] => []
  | c :: rest =>
    match rest with
    | [] => [c]
    | c2 :: _ => if c = '/' && c2 = '/' then collapseSlashes rest else c :: collapseSlashes rest

/-- `collapseSlashes` lifted to strings. -/
def collapseSlashesStr (s : String) : String :=
  ⟨collapseSlashes s.data⟩

/-- A scalar query value, as the JavaScript values the SDK's query records
carry besides arrays. -/
inductive JSScalar where
  | str (s : String)
  | int (n : Int)
  | boolv (b : Bool)
  | undef
  | nullv
deriving DecidableEq, Repr

/-- JavaScript `String()` coercion of a scalar. -/
def jsScalarToString : JSScalar → String
  | .str s => s
  | .int n => toString n
  | .boolv b => cond b "true" "false"
  | .undef => "undefined"
  | .nullv => "null"

/-- A query value: a scalar or an array of scalars. -/
inductive JSValue where
  | scalar (s : JSScalar)
  | arr (items : List JSScalar)
deriving DecidableEq, Repr

/-- `URLSearchParams.append`: add a pair at the end. -/
def spAppend (ps : List (String × String)) (k v : String) : List (String × String) :=
  ps ++ [(k, v)]

/-- `URLSearchParams.set`: overwrite the first pair with this key and drop
any later ones; append when absent. -/
def spSet : List (String × String) → String → String → List (String × String)
  | [], k, v => [(k, v)]
  | p :: rest, k, v =>
    if p.1 = k then (k, v) :: rest.filter (fun q => q.1 ≠ k)
    else p :: spSet rest k v

/-- One iteration of the query loop in `HttpClient.buildUrl`:
null/undefined values are skipped, array values are appended element-wise
skipping null/undefined elements, scalars are `String()`-coerced and set. -/
def addQueryEntry (ps : List (String × String)) (k : String) (v : JSValue) :
    List (String × String) :=
  match v with
  | .scalar .undef => ps
  | .scalar .nullv => ps
  | .arr items =>
    items.foldl
      (fun acc it =>
        match it with
        | .undef => acc
        | .nullv => acc
        | _ => spAppend acc k (jsScalarToString it))
      ps
  | .scalar s => spSet ps k (jsScalarToString s)

/-- The whole query loop of `HttpClient.buildUrl`, over the entries of the
query record in insertion order, starting from the cleared search. -/
def buildQueryParams (query : List (String × JSValue)) : List (String × String) :=
  query.foldl (fun ps e => addQueryEntry ps e.1 e.2) []

/-- Faithful translation of `HttpClient.buildUrl` (src/client.ts): the base
URL's pathname is stripped of trailing slashes, joined with the relative
path, duplicate slashes are collapsed, and the base's search and hash are
cleared before the query parameters are appended. -/
def buildUrl (base : URL) (path : String) (query : Option (List (String × JSValue))) : URL :=
  let basePath := stripTrailingSlashes base.pathname
  let normalizedPath : String :=
    match path.data with
    | '/' :: rest => ⟨rest⟩
    | _ => path
  let combinedPath := String.intercalate "/" (([basePath, normalizedPath]).filter (fun s => s ≠ ""))
  let pathname := collapseSlashesStr (if combinedPath ≠ "" then "/" ++ combinedPath else "/")
  { origin := base.origin
    pathname := pathname
    searchParams :=
      match query with
      | some q => buildQueryParams q
      | none => []
    hash := "" }

/-- Hexadecimal digit (upper case), for percent-encoding. -/
def hexDigit (n : Nat) : Char :=
  if n < 10 then Char.ofNat ('0'.toNat + n) else Char.ofNat ('A'.toNat + n - 10)

/-- UTF-8 encoding of one character, as byte values. -/
def utf8Bytes (c : Char) : List Nat :=
  let n := c.toNat
  if n < 0x80 then [n]
  else if n < 0x800 then [0xC0 + n / 0x40, 0x80 + n % 0x40]
  else if n < 0x10000 then [0xE0 + n / 0x1000, 0x80 + (n / 0x40) % 0x40, 0x80 + n % 0x40]
  else [0xF0 + n / 0x40000, 0x80 + (n / 0x1000) % 0x40, 0x80 + (n / 0x40) % 0x40, 0x80 + n % 0x40]

/-- Bytes serialized verbatim by `URLSearchParams` (application/x-www-form-urlencoded):
ASCII alphanumerics and `*-._`. -/
def formByteAllowed (b : Nat) : Bool :=
  (0x30 ≤ b && b ≤ 0x39) || (0x41 ≤ b && b ≤ 0x5A) || (0x61 ≤ b && b ≤ 0x7A) ||
    b = 0x2A || b = 0x2D || b = 0x2E || b = 0x5F

/-- application/x-www-form-urlencoded serialization of one string: space
becomes `+`, safe bytes pass through, everything else is percent-encoded. -/
def formEncode (s : String) : String :=
  (s.data.flatMap utf8Bytes).foldl
    (fun acc b =>
      if b = 0x20 then acc.push '+'
      else if formByteAllowed b then acc.push (Char.ofNat b)
      else ((acc.push '%').push (hexDigit (b / 16))).push (hexDigit (b % 16)))
    ""

/-- `url.search`: empty for no parameters, otherwise `?` followed by the
`&`-joined form-encoded pairs. -/
def serializeSearch (ps : List (String × String)) : String :=
  match ps with
  | [] => ""
  | _ => "?" ++ String.intercalate "&" (ps.map (fun p => formEncode p.1 ++ "=" ++ formEncode p.2))

/-- Run of the error interceptors (`HttpClient.runErrorInterceptors`): each
interceptor observes the thrown value and either returns a (discarded)
value or itself throws, which aborts the run. -/
def runErrorInterceptors {ω : Type} (interceptors : List (Thrown → Except Thrown ω))
    (error : Thrown) : Except Thrown (List ω) :=
  match interceptors with
  | [] => .ok []
  | i :: rest =>
    match i error with
    | .error e => .error e
    | .ok w => (runErrorInterceptors rest error).map (fun ws => w :: ws)

/-- The catch-block of `HttpClient.dispatch`: run the error interceptors,
then re-throw the original error; an interceptor's own exception
propagates instead. -/
def dispatchErrorPath {ω : Type} (interceptors : List (Thrown → Except Thrown ω))
    (error : Thrown) : Thrown :=
  match runErrorInterceptors interceptors error with
  | .ok _ => error
  | .error e => e

/-- Outcome of `HttpClient.request`: a returned value, the error thrown
from inside the attempt loop, or the post-loop fallback throw. -/
inductive ReqOutcome (α : Type) where
  | returned (v : α)
  | threwFromAttempt (e : Thrown)
  | threwFallback (e : Thrown)
deriving DecidableEq, Repr

/-- The post-loop fallback of `HttpClient.request`:
`lastError instanceof Error ? lastError : new MailrifyError('Unknown request failure', ...)`
(with `lastError` still `undefined` when the loop body never ran). -/
def fallbackError : Option Thrown → Thrown
  | some e => if e.isJsError then e else .mailrifyError "Unknown request failure"
  | none => .mailrifyError "Unknown request failure"

/-- JavaScript `>=` on numbers (false whenever either side is NaN). -/
def JSNum.ge (a b : JSNum) : Bool :=
  JSNum.le b a

/-- Faithful translation of `HttpClient.shouldRetry` with the retry bound
kept as a JavaScript number, exactly as the source reads it off the
resolved configuration: `validateConfig` only rejects `maxRetries < 0`, so
NaN (and Infinity) pass validation and reach this comparison, where
`attempt >= NaN` is false. -/
def shouldRetryNum (method : HttpMethod) (error : Thrown) (idempotent : Option Bool)
    (attempt : Nat) (maxRetries : JSNum) : Bool :=
  if (JSNum.num attempt).ge maxRetries then
    false
  else
    let isIdempotent := idempotent.getD (method = .GET || method = .HEAD)
    if !isIdempotent then
      false
    else if error.isRateLimitError then
      true
    else if error.isHTTPError then
      decide (error.httpStatus ≥ 500)
    else if error.isMailrifyError then
      false
    else
      true

/-- The retry budget with the configured value kept as a JavaScript
number: `options.idempotent === false ? 0 : this.config.retry.maxRetries`. -/
def retryBudgetNum (idempotent : Option Bool) (cfgMaxRetries : JSNum) : JSNum :=
  if idempotent = some false then .num 0 else cfgMaxRetries

/-- The attempt loop of `HttpClient.request` with the genuine JavaScript
loop guard `attempt <= maxRetries` (false for a NaN bound, so the body
never runs and the post-loop fallback throw is taken). `fuel` only bounds
the recursion depth of the embedding; `none` means the loop is still
running after `fuel` iterations. -/
def requestLoopNum {α : Type} (attemptResult : Nat → Except Thrown α) (method : HttpMethod)
    (idempotent : Option Bool) (maxRetries : JSNum) :
    Nat → Nat → Option Thrown → Option (ReqOutcome α)
  | 0, _, _ => none
  | fuel + 1, attempt, lastError =>
    if (JSNum.num attempt).le maxRetries then
      match attemptResult attempt with
      | .ok v => some (.returned v)
      | .error e =>
        if shouldRetryNum method e idempotent attempt maxRetries then
          requestLoopNum attemptResult method idempotent maxRetries fuel (attempt + 1) (some e)
        else
          some (.threwFromAttempt e)
    else
      some (.threwFallback (fallbackError lastError))

/-- `HttpClient.request` (src/client.ts): compute the retry budget and run
the attempt loop from attempt 0. -/
def requestNum {α : Type} (attemptResult : Nat → Except Thrown α) (method : HttpMethod)
    (idempotent : Option Bool) (cfgMaxRetries : JSNum) (fuel : Nat) : Option (ReqOutcome α) :=
  requestLoopNum attemptResult method idempotent (retryBudgetNum idempotent cfgMaxRetries)
    fuel 0 none

/-- Whether a character list is free of two consecutive slashes. -/
def noDoubleSlash : List Char → Bool
  | [] => true
  | [_] => true
  | c1 :: c2 :: rest => !(c1 = '/' && c2 = '/') && noDoubleSlash (c2 :: rest)

/-- `noDoubleSlash` lifted to strings. -/
def noDoubleSlashStr (s : String) : Bool :=
  noDoubleSlash s.data

/-- Whether a query-array element is kept by the loop in
`HttpClient.buildUrl` (null and undefined elements are skipped). -/
def queryItemKept : JSScalar → Bool
  | .undef => false
  | .nullv => false
  | _ => true

/-- Whether an `AuthError` instance was built (`error instanceof AuthError`). -/
def Thrown.isAuthError : Thrown → Bool
  | .authError _ _ => true
  | _ => false

/-- Whether a configuration resolution succeeded. -/
def exceptIsOk {ε α : Type} : Except ε α → Bool
  | .ok _ => true
  | .error _ => false

theorem charToLower_idem (c : Char) : c.toLower.toLower = c.toLower := by
  by_cases h : 65 ≤ c.toNat ∧ c.toNat ≤ 90
  · have h1 : c.toLower = Char.ofNat (c.toNat + 32) := by
      simp only [Char.toLower]
      rw [if_pos ⟨h.1, h.2⟩]
    rw [h1]
    obtain ⟨h65, h90⟩ := h
    set n := c.toNat with hn
    clear_value n
    interval_cases n <;> decide
  · have h1 : c.toLower = c := by
      simp only [Char.toLower]
      rw [if_neg (by omega)]
    rw [h1, h1]

theorem lowerStr_idem (s : String) : lowerStr (lowerStr s) = lowerStr s := by
  have key : ∀ l : List Char, (l.map Char.toLower).map Char.toLower = l.map Char.toLower := by
    intro l
    induction l with
    | nil => rfl
    | cons c cs ih => simp [charToLower_idem, ih]
  simp [lowerStr, key]

/-- Claim C10: a `ValidationError` constructed without an explicit status
carries status 400 (and the `ValidationError` name), so client-side
pre-flight validation failures expose an HTTP-like status of 400 even
though no response was received. -/
theorem c10_validation_error_default_status (message : String) (options : MailrifyErrorOptions)
    (h : options.status = none) :
    (mkValidationError message options).status = some 400 ∧
      (mkValidationError message options).name = "ValidationError" := by
  simp [mkValidationError, mkMailrifyError, h]

theorem c10_validation_error_default_status_witness :
    (mkValidationError "request.name must be a non-empty string." {}).status = some 400 ∧
      (mkValidationError "request.name must be a non-empty string." {}).name =
        "ValidationError" :=
  c10_validation_error_default_status "request.name must be a non-empty string." {} rfl

/-- Claim C1: the retry budget is 0 exactly when `options.idempotent` is
explicitly false and otherwise the configured max-retries; with attempts
remaining, a thrown error is retried if and only if the call is idempotent
(the explicit flag when given, else true exactly for GET/HEAD) and the
error is a `RateLimitError`, an `HTTPError` with status at least 500, or a
value outside the `MailrifyError` hierarchy; a `ValidationError` is never
retried. -/
theorem c1_retry_budget_and_decision :
    (∀ cfgMaxRetries : Nat, retryBudget (some false) cfgMaxRetries = 0) ∧
    (∀ (idempotent : Option Bool) (cfgMaxRetries : Nat), idempotent ≠ some false →
      retryBudget idempotent cfgMaxRetries = cfgMaxRetries) ∧
    (∀ (method : HttpMethod) (error : Thrown) (idempotent : Option Bool)
        (attempt maxRetries : Nat), attempt < maxRetries →
      (shouldRetry method error idempotent attempt maxRetries = true ↔
        ((match idempotent with
          | some b => b = true
          | none => method = .GET ∨ method = .HEAD) ∧
          (error.isRateLimitError = true ∨
            (error.isHTTPError = true ∧ 500 ≤ error.httpStatus) ∨
            error.isMailrifyError = false)))) ∧
    (∀ (method : HttpMethod) (m : String) (s : Nat) (idempotent : Option Bool)
        (attempt maxRetries : Nat),
      shouldRetry method (.validationError m s) idempotent attempt maxRetries = false) := by
  refine ⟨fun _ => rfl, ?_, ?_, ?_⟩
  · intro idem n h
    match idem with
    | none => rfl
    | some true => rfl
    | some false => exact absurd rfl h
  · intro method error idem attempt maxR hlt
    unfold shouldRetry
    rw [if_neg (by omega)]
    cases idem with
    | none =>
      cases error <;> cases method <;>
        simp [Thrown.isRateLimitError, Thrown.isHTTPError, Thrown.isMailrifyError,
          Thrown.httpStatus, Option.getD]
    | some b =>
      cases b <;> cases error <;>
        simp [Thrown.isRateLimitError, Thrown.isHTTPError, Thrown.isMailrifyError,
          Thrown.httpStatus, Option.getD]
  · intro method m s idem attempt maxR
    unfold shouldRetry
    split
    · rfl
    · cases idem with
      | none =>
        cases method <;>
          simp [Thrown.isRateLimitError, Thrown.isHTTPError, Thrown.isMailrifyError]
      | some b =>
        cases b <;>
          simp [Thrown.isRateLimitError, Thrown.isHTTPError, Thrown.isMailrifyError]

theorem c1_retry_budget_and_decision_witness :
    retryBudget (some true) 2 = 2 ∧
      shouldRetry .GET (.foreignError "socket hang up") none 0 2 = true ∧
      shouldRetry .GET (.validationError "bad input" 400) none 0 2 = false :=
  ⟨c1_retry_budget_and_decision.2.1 (some true) 2 (by decide),
    (c1_retry_budget_and_decision.2.2.1 .GET (.foreignError "socket hang up") none 0 2
        (by decide)).mpr ⟨Or.inl rfl, Or.inr (Or.inr rfl)⟩,
    c1_retry_budget_and_decision.2.2.2 .GET "bad input" 400 none 0 2⟩

/-- Claim C3 counterexample: a `RateLimitError` carrying the present
retry-after value 0 (e.g. from a `retry-after: 0` header) does not use that
value — the truthiness test sends it to exponential backoff, so the delay
is 500, not the carried 0. -/
theorem c3_counterexample :
    (Thrown.rateLimitError "Rate limit exceeded." ⟨429, none, none, none⟩
        (some (.num 0))).retryAfterField = some (.num 0) ∧
    getRetryDelay 500
        (.rateLimitError "Rate limit exceeded." ⟨429, none, none, none⟩ (some (.num 0))) 0 =
      .num 500 ∧
    ((.num 500 : JSNum) = .num 0 → False) := by
  refine ⟨rfl, ?_, by decide⟩
  show (if (JSNum.num 0).truthy then JSNum.num 0 else .num (500 * 2 ^ 0)) = .num 500
  norm_num [JSNum.truthy]

/-- Claim C3 (amended): the delay before the next attempt is the rate-limit
error's carried retry-after value whenever that error is a `RateLimitError`
and its retry-after value is present AND truthy (a nonzero non-NaN number);
otherwise — including a present retry-after of 0 or NaN — it is the
configured base delay times 2 to the zero-based attempt index; a zero or
negative delay resolves immediately without suspending. -/
theorem c3_retry_delay :
    (∀ (retryDelayMs : ℤ) (error : Thrown) (attempt : Nat) (ra : JSNum),
        error.retryAfterField = some ra → ra.truthy = true →
        getRetryDelay retryDelayMs error attempt = ra) ∧
    (∀ (retryDelayMs : ℤ) (error : Thrown) (attempt : Nat) (ra : JSNum),
        error.retryAfterField = some ra → ra.truthy = false →
        getRetryDelay retryDelayMs error attempt = .num (retryDelayMs * 2 ^ attempt)) ∧
    (∀ (retryDelayMs : ℤ) (error : Thrown) (attempt : Nat),
        error.retryAfterField = none →
        getRetryDelay retryDelayMs error attempt = .num (retryDelayMs * 2 ^ attempt)) ∧
    (∀ error : Thrown, error.isRateLimitError = false → error.retryAfterField = none) ∧
    (∀ d : JSNum, d.le (.num 0) = true → delaySuspends d = false) := by
  refine ⟨?_, ?_, ?_, ?_, ?_⟩
  · intro ms error attempt ra hra htr
    simp [getRetryDelay, hra, htr]
  · intro ms error attempt ra hra htr
    simp [getRetryDelay, hra, htr]
  · intro ms error attempt hra
    simp [getRetryDelay, hra]
  · intro error h
    cases error <;> simp_all [Thrown.isRateLimitError, Thrown.retryAfterField]
  · intro d h
    unfold delaySuspends
    rw [if_pos h]

theorem c3_retry_delay_witness :
    getRetryDelay 500
        (.rateLimitError "Rate limit exceeded." ⟨429, none, none, none⟩ (some (.num 2000))) 1 =
      .num 2000 ∧
    delaySuspends (.num 0) = false :=
  ⟨c3_retry_delay.1 500
      (.rateLimitError "Rate limit exceeded." ⟨429, none, none, none⟩ (some (.num 2000))) 1
      (.num 2000) rfl (by decide),
    c3_retry_delay.2.2.2.2 (.num 0) (by decide)⟩

/-- Claim C8: on a thrown error all registered error interceptors run in
registration order; they are observation-only — their return values are
discarded and the original error is re-raised unchanged — but an exception
raised inside an error interceptor propagates and replaces the original
error. -/
theorem c8_error_interceptors :
    (∀ (ω : Type) (fs : List (Thrown → ω)) (error : Thrown),
        runErrorInterceptors (fs.map (fun f x => Except.ok (f x))) error =
          .ok (fs.map (fun f => f error)) ∧
        dispatchErrorPath (fs.map (fun f x => Except.ok (f x))) error = error) ∧
    (∀ (ω : Type) (fs : List (Thrown → ω)) (rest : List (Thrown → Except Thrown ω))
        (error e' : Thrown),
        dispatchErrorPath
          (fs.map (fun f x => Except.ok (f x)) ++ (fun _ => Except.error e') :: rest)
          error = e') := by
  have run_ok : ∀ (ω : Type) (fs : List (Thrown → ω)) (error : Thrown),
      runErrorInterceptors (fs.map (fun f x => Except.ok (f x))) error =
        .ok (fs.map (fun f => f error)) := by
    intro ω fs error
    induction fs with
    | nil => rfl
    | cons f fs ih => simp [runErrorInterceptors, ih, Except.map]
  have run_throw : ∀ (ω : Type) (fs : List (Thrown → ω))
      (rest : List (Thrown → Except Thrown ω)) (error e' : Thrown),
      runErrorInterceptors
          (fs.map (fun f x => Except.ok (f x)) ++ (fun _ => Except.error e') :: rest) error =
        .error e' := by
    intro ω fs rest error e'
    induction fs with
    | nil => rfl
    | cons f fs ih => simp [runErrorInterceptors, ih, Except.map]
  refine ⟨fun ω fs error => ⟨run_ok ω fs error, ?_⟩, fun ω fs rest error e' => ?_⟩
  · unfold dispatchErrorPath
    rw [run_ok]
  · unfold dispatchErrorPath
    rw [run_throw]

theorem shouldRetryNum_lt {method : HttpMethod} {error : Thrown} {idempotent : Option Bool}
    {attempt m : Nat}
    (h : shouldRetryNum method error idempotent attempt (.num m) = true) :
    attempt < m := by
  by_contra hc
  unfold shouldRetryNum at h
  rw [if_pos (by simp only [JSNum.ge, JSNum.le, decide_eq_true_eq]; omega)] at h
  exact Bool.false_ne_true h

theorem shouldRetryNum_of_ge {method : HttpMethod} {error : Thrown} {idempotent : Option Bool}
    {attempt m : Nat} (h : m ≤ attempt) :
    shouldRetryNum method error idempotent attempt (.num m) = false := by
  unfold shouldRetryNum
  rw [if_pos (by simp only [JSNum.ge, JSNum.le, decide_eq_true_eq]; omega)]

theorem requestLoopNum_succ {α : Type} (fRes : Nat → Except Thrown α) (method : HttpMethod)
    (idem : Option Bool) (maxR : JSNum) (fuel attempt : Nat) (lastErr : Option Thrown) :
    requestLoopNum fRes method idem maxR (fuel + 1) attempt lastErr =
      if (JSNum.num attempt).le maxR then
        match fRes attempt with
        | .ok v => some (.returned v)
        | .error e =>
          if shouldRetryNum method e idem attempt maxR then
            requestLoopNum fRes method idem maxR fuel (attempt + 1) (some e)
          else
            some (.threwFromAttempt e)
      else
        some (.threwFallback (fallbackError lastErr)) := rfl

theorem requestLoopNum_spec {α : Type} (fRes : Nat → Except Thrown α) (method : HttpMethod)
    (idem : Option Bool) (m : Nat) :
    ∀ (fuel attempt : Nat) (lastErr : Option Thrown), attempt ≤ m → m < attempt + fuel →
      (requestLoopNum fRes method idem (.num m) fuel attempt lastErr ≠ none) ∧
      (∀ e, requestLoopNum fRes method idem (.num m) fuel attempt lastErr ≠
        some (.threwFallback e)) ∧
      (∀ e, requestLoopNum fRes method idem (.num m) fuel attempt lastErr =
          some (.threwFromAttempt e) →
        ∃ a, attempt ≤ a ∧ a ≤ m ∧ fRes a = .error e ∧
          shouldRetryNum method e idem a (.num m) = false) := by
  intro fuel
  induction fuel with
  | zero => intro attempt lastErr h1 h2; omega
  | succ n ih =>
    intro attempt lastErr h1 h2
    rw [requestLoopNum_succ,
      if_pos (by simp only [JSNum.le, decide_eq_true_eq]; omega)]
    cases hres : fRes attempt with
    | ok v =>
      exact ⟨fun h => by simp at h, fun e h => by simp at h, fun e h => by simp at h⟩
    | error e0 =>
      by_cases hr : shouldRetryNum method e0 idem attempt (.num m) = true
      · simp only [hr, if_true]
        have hlt : attempt < m := shouldRetryNum_lt hr
        have := ih (attempt + 1) (some e0) (by omega) (by omega)
        refine ⟨this.1, this.2.1, fun e h => ?_⟩
        obtain ⟨a, ha1, ha2, ha3, ha4⟩ := this.2.2 e h
        exact ⟨a, by omega, ha2, ha3, ha4⟩
      · have hrf : shouldRetryNum method e0 idem attempt (.num m) = false := by
          simpa using hr
        simp only [hrf, Bool.false_eq_true, if_false]
        refine ⟨fun h => by simp at h, fun e h => by simp at h, fun e h => ?_⟩
        have he : e0 = e := by simpa using h
        subst he
        exact ⟨attempt, le_refl _, h1, hres, hrf⟩

theorem requestLoopNum_exhaust {α : Type} (fRes : Nat → Except Thrown α) (method : HttpMethod)
    (idem : Option Bool) (m : Nat) :
    ∀ (fuel attempt : Nat) (lastErr : Option Thrown), attempt ≤ m → m < attempt + fuel →
      (∀ a, attempt ≤ a → a < m →
        ∃ ea, fRes a = .error ea ∧ shouldRetryNum method ea idem a (.num m) = true) →
      ∀ eN, fRes m = .error eN →
        requestLoopNum fRes method idem (.num m) fuel attempt lastErr =
          some (.threwFromAttempt eN) := by
  intro fuel
  induction fuel with
  | zero => intro attempt lastErr h1 h2 _ _ _; omega
  | succ n ih =>
    intro attempt lastErr h1 h2 hall eN hN
    rw [requestLoopNum_succ,
      if_pos (by simp only [JSNum.le, decide_eq_true_eq]; omega)]
    by_cases hend : attempt = m
    · subst hend
      rw [hN]
      simp only [shouldRetryNum_of_ge (le_refl _), Bool.false_eq_true, if_false]
    · have hlt : attempt < m := by omega
      obtain ⟨ea, hea, hretry⟩ := hall attempt (le_refl _) hlt
      rw [hea]
      simp only [hretry, if_true]
      exact ih (attempt + 1) (some ea) (by omega) (by omega)
        (fun a ha1 ha2 => hall a (by omega) ha2) eN hN

/-- Claim C9 counterexample: the post-loop fallback is reachable in the
program. A configured `maxRetries` of NaN passes `validateConfig`
(`NaN < 0` is false) and survives `resolveConfig` unchanged; the loop
guard `0 <= NaN` is then false, so no attempt ever runs — even one that
would have succeeded — and the call throws the fallback
`MailrifyError('Unknown request failure')`. -/
theorem c9_counterexample :
    requestNum (α := Unit) (fun _ => .ok ()) .GET none JSNum.nan 1 =
      some (.threwFallback (.mailrifyError "Unknown request failure")) ∧
    exceptIsOk (validateConfig
      { apiKey := "key", maxRetries := some JSNum.nan, fetchImpl := some () }) = true ∧
    resolveConfig none { apiKey := "key", maxRetries := some JSNum.nan, fetchImpl := some () } =
      .ok
        { apiKey := "key", baseUrl := DEFAULT_BASE_URL, timeout := DEFAULT_TIMEOUT,
          headers := [], debug := false, maxRetries := JSNum.nan,
          retryDelayMs := DEFAULT_RETRY_DELAY, userAgent := none } ∧
    ((∀ e, requestNum (α := Unit) (fun _ => .ok ()) .GET none JSNum.nan 1 ≠
        some (.threwFallback e)) → False) :=
  ⟨rfl, rfl, rfl, fun h => h (.mailrifyError "Unknown request failure") rfl⟩

/-- Claim C9 (amended): whenever the retry budget is a nonnegative
integer — every configuration whose `maxRetries` is an integer, including
the default 2 — the attempt loop terminates by itself, the error raised on
budget exhaustion is exactly the last error thrown by the final attempt,
and the post-loop fallback that wraps a non-Error value in
`MailrifyError('Unknown request failure')` is unreachable; but when the
configured `maxRetries` is NaN — which `validateConfig` admits, since
`NaN < 0` is false — the loop guard `attempt <= maxRetries` is false at
once, no attempt runs, and the call throws the fallback
`MailrifyError('Unknown request failure')`. -/
theorem c9_request_fallback :
    (∀ (α : Type) (attemptResult : Nat → Except Thrown α) (method : HttpMethod)
        (idempotent : Option Bool) (cfgMaxRetries : JSNum) (m fuel : Nat),
      retryBudgetNum idempotent cfgMaxRetries = .num m → m + 1 ≤ fuel →
      (requestNum attemptResult method idempotent cfgMaxRetries fuel ≠ none) ∧
      (∀ e, requestNum attemptResult method idempotent cfgMaxRetries fuel ≠
        some (.threwFallback e)) ∧
      (∀ e, requestNum attemptResult method idempotent cfgMaxRetries fuel =
          some (.threwFromAttempt e) →
        ∃ a, a ≤ m ∧ attemptResult a = .error e ∧
          shouldRetryNum method e idempotent a (.num m) = false) ∧
      ((∀ a, a < m →
          ∃ ea, attemptResult a = .error ea ∧
            shouldRetryNum method ea idempotent a (.num m) = true) →
        ∀ eN, attemptResult m = .error eN →
          requestNum attemptResult method idempotent cfgMaxRetries fuel =
            some (.threwFromAttempt eN))) ∧
    (∀ (α : Type) (attemptResult : Nat → Except Thrown α) (method : HttpMethod) (fuel : Nat),
      requestNum attemptResult method none JSNum.nan (fuel + 1) =
        some (.threwFallback (.mailrifyError "Unknown request failure"))) := by
  constructor
  · intro α fRes method idem cfgMax m fuel hbudget hfuel
    unfold requestNum
    rw [hbudget]
    have h1 := requestLoopNum_spec fRes method idem m fuel 0 none (by omega) (by omega)
    refine ⟨h1.1, h1.2.1, fun e h => ?_, fun hall eN hN => ?_⟩
    · obtain ⟨a, _, ha2, ha3, ha4⟩ := h1.2.2 e h
      exact ⟨a, ha2, ha3, ha4⟩
    · exact requestLoopNum_exhaust fRes method idem m fuel 0 none (by omega) (by omega)
        (fun a _ ha2 => hall a ha2) eN hN
  · intro α fRes method fuel
    rfl

theorem c9_request_fallback_witness :
    requestNum (α := Unit)
        (fun _ => .error (.httpError "Internal Server Error" ⟨500, none, none, none⟩))
        .GET none (.num 1) 2 =
      some (.threwFromAttempt (.httpError "Internal Server Error" ⟨500, none, none, none⟩)) ∧
    requestNum (α := Unit) (fun _ => .ok ()) .POST none JSNum.nan 1 =
      some (.threwFallback (.mailrifyError "Unknown request failure")) := by
  constructor
  · apply (c9_request_fallback.1 Unit
      (fun _ => .error (.httpError "Internal Server Error" ⟨500, none, none, none⟩))
      .GET none (.num 1) 1 2 rfl (by omega)).2.2.2
    · intro a ha
      interval_cases a
      exact ⟨.httpError "Internal Server Error" ⟨500, none, none, none⟩, rfl, by decide⟩
    · rfl
  · exact c9_request_fallback.2 Unit (fun _ => .ok ()) .POST 0


/-- Claim C2 counterexample: a 429 response whose `retry-after` header is
present but non-numeric ("abc") yields a `RateLimitError` whose
`retryAfter` field is NaN (`parseInt('abc', 10) * 1000`), not absent as the
claim states. -/
theorem c2_counterexample :
    (buildError (fun _ => none) ⟨429, [("retry-after", "abc")], ""⟩ "/v1/emails").retryAfterField =
      some JSNum.nan ∧
    ((buildError (fun _ => none) ⟨429, [("retry-after", "abc")], ""⟩
        "/v1/emails").retryAfterField = none → False) := by
  have h1 : (buildError (fun _ => none) ⟨429, [("retry-after", "abc")], ""⟩
      "/v1/emails").retryAfterField = some JSNum.nan := rfl
  exact ⟨h1, fun h => by rw [h1] at h; exact Option.noConfusion h⟩

/-- Claim C2 (amended): classification of a non-success response follows
the priority order 401/403, then 429, then generic. 401/403 yields an
`AuthError` defaulting its message to "Unauthorized request." when the
payload supplies neither `message` nor `error`; 429 yields a
`RateLimitError` whose `retryAfter` is the `retry-after` header parsed as a
leading integer of whole seconds times 1000 ms — absent when the header is
missing or empty, and NaN (present, though treated as absent downstream)
when the header is present but non-numeric; any other status yields a
generic `HTTPError` whose message is the payload's `message` field, else
its `error` field, else the synthesized
"Request to <path> failed with status <status>." message. -/
theorem c2_error_classification :
    ∀ (decodeErrPayload : String → Option ErrPayload) (r : Response) (pathname : String),
      ((r.status = 401 ∨ r.status = 403) →
        (buildError decodeErrPayload r pathname).isAuthError = true ∧
        ((safeParseError decodeErrPayload r).bind (fun p => p.message) = none →
          (safeParseError decodeErrPayload r).bind (fun p => p.error) = none →
          (buildError decodeErrPayload r pathname).messageOf = "Unauthorized request.")) ∧
      (r.status = 429 →
        (buildError decodeErrPayload r pathname).isRateLimitError = true ∧
        (headersGet r.headers "retry-after" = none →
          (buildError decodeErrPayload r pathname).retryAfterField = none) ∧
        (headersGet r.headers "retry-after" = some "" →
          (buildError decodeErrPayload r pathname).retryAfterField = none) ∧
        (∀ h, headersGet r.headers "retry-after" = some h → h ≠ "" →
          (buildError decodeErrPayload r pathname).retryAfterField =
            some ((parseIntJS h).mul (.num 1000))) ∧
        (∀ h n, headersGet r.headers "retry-after" = some h → parseIntJS h = .num n →
          (buildError decodeErrPayload r pathname).retryAfterField = some (.num (n * 1000)))) ∧
      (r.status ≠ 401 → r.status ≠ 403 → r.status ≠ 429 →
        (buildError decodeErrPayload r pathname).isHTTPError = true ∧
        (buildError decodeErrPayload r pathname).isAuthError = false ∧
        (buildError decodeErrPayload r pathname).isRateLimitError = false ∧
        (∀ m, (safeParseError decodeErrPayload r).bind (fun p => p.message) = some m →
          (buildError decodeErrPayload r pathname).messageOf = m) ∧
        ((safeParseError decodeErrPayload r).bind (fun p => p.message) = none →
          ∀ m, (safeParseError decodeErrPayload r).bind (fun p => p.error) = some m →
          (buildError decodeErrPayload r pathname).messageOf = m) ∧
        ((safeParseError decodeErrPayload r).bind (fun p => p.message) = none →
          (safeParseError decodeErrPayload r).bind (fun p => p.error) = none →
          (buildError decodeErrPayload r pathname).messageOf =
            "Request to " ++ pathname ++ " failed with status " ++ toString r.status ++ ".")) := by
  intro d r p
  refine ⟨?_, ?_, ?_⟩
  · intro h
    have hb : buildError d r p =
        .authError
          ((((safeParseError d r).bind (fun q => q.message)).orElse
              (fun _ => (safeParseError d r).bind (fun q => q.error))).getD
            "Unauthorized request.")
          { status := r.status
            code := (safeParseError d r).bind (fun q => q.code)
            details := detailsOf (safeParseError d r)
            requestId := headersGet r.headers "x-request-id" } := by
      simp only [buildError]
      rw [if_pos h]
    rw [hb]
    refine ⟨rfl, fun hm he => ?_⟩
    simp [Thrown.messageOf, hm, he]
  · intro h
    have hb : buildError d r p =
        .rateLimitError (((safeParseError d r).bind (fun q => q.message)).getD
            "Rate limit exceeded.")
          { status := r.status
            code := (safeParseError d r).bind (fun q => q.code)
            details := detailsOf (safeParseError d r)
            requestId := headersGet r.headers "x-request-id" }
          (match headersGet r.headers "retry-after" with
            | some hdr => if hdr = "" then none else some ((parseIntJS hdr).mul (.num 1000))
            | none => none) := by
      simp only [buildError]
      rw [if_neg (by omega), if_pos h]
    rw [hb]
    refine ⟨rfl, fun hh => ?_, fun hh => ?_, fun hdr hh hne => ?_, fun hdr n hh hn => ?_⟩
    · simp [Thrown.retryAfterField, hh]
    · simp [Thrown.retryAfterField, hh]
    · simp [Thrown.retryAfterField, hh, hne]
    · have hne : hdr ≠ "" := by
        intro he
        rw [he] at hn
        exact JSNum.noConfusion hn
      simp [Thrown.retryAfterField, hh, hne, hn, JSNum.mul]
  · intro h1 h2 h3
    have hb : buildError d r p =
        .httpError
          ((((safeParseError d r).bind (fun q => q.message)).orElse
              (fun _ => (safeParseError d r).bind (fun q => q.error))).getD
            ("Request to " ++ p ++ " failed with status " ++ toString r.status ++ "."))
          { status := r.status
            code := (safeParseError d r).bind (fun q => q.code)
            details := detailsOf (safeParseError d r)
            requestId := headersGet r.headers "x-request-id" } := by
      simp only [buildError]
      rw [if_neg (by omega), if_neg h3]
    rw [hb]
    refine ⟨rfl, rfl, rfl, fun m hm => ?_, fun hm m he => ?_, fun hm he => ?_⟩
    · simp [Thrown.messageOf, hm]
    · simp [Thrown.messageOf, hm, he]
    · simp [Thrown.messageOf, hm, he]

theorem c2_error_classification_witness :
    (buildError (fun _ => none) ⟨429, [("retry-after", "2")], ""⟩ "/v1/emails").isRateLimitError =
      true ∧
    (buildError (fun _ => none) ⟨429, [("retry-after", "2")], ""⟩ "/v1/emails").retryAfterField =
      some (.num (2 * 1000)) ∧
    (buildError (fun _ => none) ⟨401, [], ""⟩ "/v1/emails").messageOf =
      "Unauthorized request." := by
  refine ⟨((c2_error_classification (fun _ => none) ⟨429, [("retry-after", "2")], ""⟩
    "/v1/emails").2.1 rfl).1, ?_, ?_⟩
  · exact ((c2_error_classification (fun _ => none) ⟨429, [("retry-after", "2")], ""⟩
      "/v1/emails").2.1 rfl).2.2.2.2 "2" 2 rfl (by decide)
  · exact ((c2_error_classification (fun _ => none) ⟨401, [], ""⟩ "/v1/emails").1
      (Or.inl rfl)).2 rfl rfl

theorem validateConfig_error_iff (c : ClientConfig) :
    (∃ m, validateConfig c = .error m) ↔
      ((c.apiKey = "" ∨ (trimStr c.apiKey).length = 0) ∨
        (∃ t, c.timeout = some t ∧ (!t.isFinite || t.le (.num 0)) = true) ∨
        (∃ m, c.maxRetries = some m ∧ m.lt (.num 0) = true) ∨
        (∃ d, c.retryDelayMs = some d ∧ d.lt (.num 0) = true)) := by
  unfold validateConfig
  split_ifs with h1 h2 h3 h4
  · exact iff_of_true ⟨_, rfl⟩ (Or.inl h1)
  · refine iff_of_true ⟨_, rfl⟩ (Or.inr (Or.inl ?_))
    cases ht : c.timeout with
    | none => rw [ht] at h2; exact absurd h2 (by simp)
    | some t => rw [ht] at h2; exact ⟨t, rfl, h2⟩
  · refine iff_of_true ⟨_, rfl⟩ (Or.inr (Or.inr (Or.inl ?_)))
    cases hm : c.maxRetries with
    | none => rw [hm] at h3; exact absurd h3 (by simp)
    | some m => rw [hm] at h3; exact ⟨m, rfl, h3⟩
  · refine iff_of_true ⟨_, rfl⟩ (Or.inr (Or.inr (Or.inr ?_)))
    cases hd : c.retryDelayMs with
    | none => rw [hd] at h4; exact absurd h4 (by simp)
    | some d => rw [hd] at h4; exact ⟨d, rfl, h4⟩
  · refine iff_of_false (by simp) ?_
    rintro (h | ⟨t, ht, h⟩ | ⟨m, hm, h⟩ | ⟨d, hd, h⟩)
    · exact h1 h
    · exact h2 (by rw [ht]; exact h)
    · exact h3 (by rw [hm]; exact h)
    · exact h4 (by rw [hd]; exact h)

theorem orElse_none_iff {α : Type} (a b : Option α) :
    (a.orElse fun _ => b) = none ↔ a = none ∧ b = none := by
  cases a <;> simp [Option.orElse]

/-- Claim C4 (amended): configuration resolution fails exactly when the
credential is blank, the timeout is present and not a finite positive
number, the retry count is negative, the backoff delay is negative, or no
transport function is available; the first four cases raise a
`ValidationError`, but the transport-missing case raises a plain `Error`
(not a `ValidationError`) — still at client construction, not at first
call. (Under the TypeScript types a present base address is always a
string, so the base-address arm of `validateConfig` cannot fire.) -/
theorem c4_config_validation :
    ∀ (ambientFetch : Option Unit) (c : ClientConfig),
      ((∃ m, resolveConfig ambientFetch c = .error (.validation m)) ↔
        ((c.apiKey = "" ∨ (trimStr c.apiKey).length = 0) ∨
          (∃ t, c.timeout = some t ∧ (!t.isFinite || t.le (.num 0)) = true) ∨
          (∃ m, c.maxRetries = some m ∧ m.lt (.num 0) = true) ∨
          (∃ d, c.retryDelayMs = some d ∧ d.lt (.num 0) = true))) ∧
      ((resolveConfig ambientFetch c =
          .error (.plainError
            "A fetch implementation is required (Node 18+ provides a global fetch).")) ↔
        (validateConfig c = .ok () ∧ c.fetchImpl = none ∧ ambientFetch = none)) ∧
      ((∃ e, resolveConfig ambientFetch c = .error e) ↔
        ((∃ m, validateConfig c = .error m) ∨ (c.fetchImpl = none ∧ ambientFetch = none))) ∧
      constructHttpClient ambientFetch c = resolveConfig ambientFetch c := by
  intro amb c
  cases hv : validateConfig c with
  | error m =>
    have hr : resolveConfig amb c = .error (.validation m) := by
      unfold resolveConfig
      rw [hv]
    refine ⟨?_, ?_, ?_, rfl⟩
    · rw [← validateConfig_error_iff]
      exact iff_of_true ⟨m, hr⟩ ⟨m, hv⟩
    · refine iff_of_false (fun h => ?_) (fun h => ?_)
      · rw [hr] at h
        simp at h
      · exact absurd h.1 (by simp)
    · exact iff_of_true ⟨_, hr⟩ (Or.inl ⟨m, rfl⟩)
  | ok u =>
    cases u
    cases hf : c.fetchImpl.orElse fun _ => amb with
    | none =>
      have hr : resolveConfig amb c =
          .error (.plainError
            "A fetch implementation is required (Node 18+ provides a global fetch).") := by
        unfold resolveConfig
        rw [hv, hf]
      have hboth := (orElse_none_iff c.fetchImpl amb).mp hf
      refine ⟨?_, ?_, ?_, rfl⟩
      · rw [← validateConfig_error_iff]
        refine iff_of_false (fun ⟨m, hm⟩ => ?_) (fun ⟨m, hm⟩ => ?_)
        · rw [hr] at hm
          simp at hm
        · rw [hv] at hm
          simp at hm
      · exact iff_of_true hr ⟨rfl, hboth⟩
      · exact iff_of_true ⟨_, hr⟩ (Or.inr hboth)
    | some f =>
      have hr : resolveConfig amb c = .ok
          { apiKey := c.apiKey
            baseUrl :=
              match c.baseUrl with
              | some b => stripTrailingSlashes b
              | none => DEFAULT_BASE_URL
            timeout := c.timeout.getD DEFAULT_TIMEOUT
            headers := c.headers
            debug := c.debug
            maxRetries := c.maxRetries.getD DEFAULT_MAX_RETRIES
            retryDelayMs := c.retryDelayMs.getD DEFAULT_RETRY_DELAY
            userAgent := c.userAgent } := by
        unfold resolveConfig
        rw [hv, hf]
      have hnomiss : ¬(c.fetchImpl = none ∧ amb = none) := by
        intro hb
        rw [(orElse_none_iff c.fetchImpl amb).mpr hb] at hf
        exact Option.noConfusion hf
      refine ⟨?_, ?_, ?_, rfl⟩
      · rw [← validateConfig_error_iff]
        refine iff_of_false (fun ⟨m, hm⟩ => ?_) (fun ⟨m, hm⟩ => ?_)
        · rw [hr] at hm
          simp at hm
        · rw [hv] at hm
          simp at hm
      · refine iff_of_false (fun h => ?_) (fun h => hnomiss h.2)
        rw [hr] at h
        simp at h
      · refine iff_of_false (fun ⟨e, he⟩ => ?_) ?_
        · rw [hr] at he
          simp at he
        · rintro (⟨m, hm⟩ | hb)
          · simp at hm
          · exact hnomiss hb

/-- Claim C4 counterexample: with a valid credential and no transport, the
failure raised at construction is a plain `Error`, not the
`ValidationError` the claim states. -/
theorem c4_counterexample :
    constructHttpClient none { apiKey := "key" } =
      .error (.plainError
        "A fetch implementation is required (Node 18+ provides a global fetch).") ∧
    ((∃ m, constructHttpClient none { apiKey := "key" } = .error (.validation m)) → False) := by
  have h1 : constructHttpClient none { apiKey := "key" } =
      .error (.plainError
        "A fetch implementation is required (Node 18+ provides a global fetch).") := rfl
  refine ⟨h1, fun ⟨m, hm⟩ => ?_⟩
  rw [h1] at hm
  simp at hm

theorem c4_config_validation_witness :
    resolveConfig none { apiKey := "key" } =
      .error (.plainError
        "A fetch implementation is required (Node 18+ provides a global fetch).") ∧
    (∃ m, resolveConfig none { apiKey := "  ", fetchImpl := some () } =
      .error (.validation m)) := by
  constructor
  · exact (c4_config_validation none { apiKey := "key" }).2.1.mpr ⟨rfl, rfl, rfl⟩
  · exact (c4_config_validation none { apiKey := "  ", fetchImpl := some () }).1.mpr
      (Or.inl (Or.inr (by decide)))

theorem buildError_isMailrifyError (d : String → Option ErrPayload) (r : Response)
    (p : String) : (buildError d r p).isMailrifyError = true := by
  simp only [buildError]
  split_ifs <;> rfl

/-- Claim C5: a final response with status outside 200–299 makes the
dispatcher raise a typed error and return no body; otherwise the parsed
result is absent for status 204 or a `content-length` of "0", is the
JSON-decoded body when the content-type contains `application/json`, and is
otherwise the raw response text, with empty text mapped to an absent value. -/
theorem c5_response_parsing :
    ∀ (α : Type) (decodeJson : String → α) (decodeErrPayload : String → Option ErrPayload)
      (r : Response) (pathname : String),
      (responseOk r = false →
        ∃ e, dispatchFinal decodeJson decodeErrPayload r pathname = .error e ∧
          e.isMailrifyError = true) ∧
      (responseOk r = true →
        dispatchFinal decodeJson decodeErrPayload r pathname = .ok (parseResponse decodeJson r)) ∧
      ((r.status = 204 ∨ headersGet r.headers "content-length" = some "0") →
        parseResponse decodeJson r = none) ∧
      (¬(r.status = 204 ∨ headersGet r.headers "content-length" = some "0") →
        includesStr ((headersGet r.headers "content-type").getD "") "application/json" = true →
        parseResponse decodeJson r = some (.jsonVal (decodeJson r.bodyText))) ∧
      (¬(r.status = 204 ∨ headersGet r.headers "content-length" = some "0") →
        includesStr ((headersGet r.headers "content-type").getD "") "application/json" = false →
        r.bodyText ≠ "" →
        parseResponse decodeJson r = some (.textVal r.bodyText)) ∧
      (¬(r.status = 204 ∨ headersGet r.headers "content-length" = some "0") →
        includesStr ((headersGet r.headers "content-type").getD "") "application/json" = false →
        r.bodyText = "" →
        parseResponse decodeJson r = none) := by
  intro α dec derr r p
  refine ⟨?_, ?_, ?_, ?_, ?_, ?_⟩
  · intro h
    refine ⟨buildError derr r p, ?_, buildError_isMailrifyError derr r p⟩
    unfold dispatchFinal
    rw [if_pos (by simp [h])]
  · intro h
    unfold dispatchFinal
    rw [if_neg (by simp [h])]
  · intro h
    unfold parseResponse
    rw [if_pos h]
  · intro h hct
    unfold parseResponse
    rw [if_neg h, if_pos hct]
  · intro h hct hne
    unfold parseResponse
    rw [if_neg h, if_neg (by simp [hct]), if_neg hne]
  · intro h hct hemp
    unfold parseResponse
    rw [if_neg h, if_neg (by simp [hct]), if_pos hemp]

theorem c5_response_parsing_witness :
    (∃ e, dispatchFinal (α := String) (fun s => s) (fun _ => none) ⟨503, [], ""⟩ "/v1/emails" =
      .error e ∧ e.isMailrifyError = true) ∧
    dispatchFinal (α := String) (fun s => s) (fun _ => none)
        ⟨200, [("content-type", "application/json")], "42"⟩ "/v1/emails" =
      .ok (some (.jsonVal "42")) ∧
    parseResponse (α := String) (fun s => s) ⟨204, [], ""⟩ = none ∧
    parseResponse (α := String) (fun s => s) ⟨200, [], "pong"⟩ = some (.textVal "pong") := by
  refine ⟨(c5_response_parsing String (fun s => s) (fun _ => none) ⟨503, [], ""⟩
    "/v1/emails").1 rfl, ?_, ?_, ?_⟩
  · have h := (c5_response_parsing String (fun s => s) (fun _ => none)
      ⟨200, [("content-type", "application/json")], "42"⟩ "/v1/emails").2.1 rfl
    rw [h]
    have h2 := (c5_response_parsing String (fun s => s) (fun _ => none)
      ⟨200, [("content-type", "application/json")], "42"⟩ "/v1/emails").2.2.2.1
      (by decide) (by decide)
    rw [h2]
  · exact (c5_response_parsing String (fun s => s) (fun _ => none) ⟨204, [], ""⟩ "/x").2.2.1
      (Or.inl rfl)
  · exact (c5_response_parsing String (fun s => s) (fun _ => none) ⟨200, [], "pong"⟩
      "/x").2.2.2.2.1 (by decide) (by decide) (by decide)

theorem keysLower_nil : KeysLower [] := by
  intro p hp
  exact absurd hp (List.not_mem_nil p)

theorem keysLower_headersSet {hs : List (String × String)} (h : KeysLower hs) (k v : String) :
    KeysLower (headersSet hs k v) := by
  simp only [headersSet]
  split_ifs with hany
  · intro p hp
    obtain ⟨q, hq, hqe⟩ := List.mem_map.mp hp
    by_cases hqk : q.1 = lowerStr k
    · rw [if_pos hqk] at hqe
      rw [← hqe]
      exact (lowerStr_idem k).symm
    · rw [if_neg hqk] at hqe
      rw [← hqe]
      exact h q hq
  · intro p hp
    rcases List.mem_append.mp hp with hmem | hmem
    · exact h p hmem
    · have hp1 : p = (lowerStr k, v) := by simpa using hmem
      rw [hp1]
      exact (lowerStr_idem k).symm

theorem keysLower_foldlSet (l : List (String × String)) :
    ∀ hs : List (String × String), KeysLower hs →
      KeysLower (l.foldl (fun acc p => headersSet acc p.1 p.2) hs) := by
  induction l with
  | nil => intro hs h; exact h
  | cons p l ih =>
    intro hs h
    rw [List.foldl_cons]
    exact ih (headersSet hs p.1 p.2) (keysLower_headersSet h p.1 p.2)

theorem find?_map_setEntry (hs : List (String × String)) (k v k' : String)
    (hne : lowerStr k' ≠ lowerStr k) :
    (hs.map (fun q => if q.1 = lowerStr k then (lowerStr k, v) else q)).find?
        (fun p => lowerStr p.1 = lowerStr k') =
      hs.find? (fun p => lowerStr p.1 = lowerStr k') := by
  induction hs with
  | nil => rfl
  | cons q hs ih =>
    rw [List.map_cons]
    by_cases hq : q.1 = lowerStr k
    · rw [if_pos hq]
      have h1 : (decide (lowerStr (lowerStr k, v).1 = lowerStr k')) = false := by
        simp only [decide_eq_false_iff_not]
        intro hc
        exact hne (by rw [← hc, lowerStr_idem])
      have h2 : (decide (lowerStr q.1 = lowerStr k')) = false := by
        simp only [decide_eq_false_iff_not]
        intro hc
        rw [hq] at hc
        exact hne (by rw [← hc, lowerStr_idem])
      rw [List.find?_cons_of_neg _ (by simpa using h1),
        List.find?_cons_of_neg _ (by simpa using h2)]
      exact ih
    · rw [if_neg hq]
      by_cases hp : lowerStr q.1 = lowerStr k'
      · rw [List.find?_cons_of_pos _ (by simpa using hp),
          List.find?_cons_of_pos _ (by simpa using hp)]
      · rw [List.find?_cons_of_neg _ (by simpa using hp),
          List.find?_cons_of_neg _ (by simpa using hp)]
        exact ih

theorem headersSet_cons_ne {q : String × String} {hs : List (String × String)}
    {k : String} (v : String) (hq : q.1 ≠ lowerStr k) :
    headersSet (q :: hs) k v = q :: headersSet hs k v := by
  simp only [headersSet]
  have hqd : decide (q.1 = lowerStr k) = false := by simpa using hq
  simp only [List.any_cons, hqd, Bool.false_or]
  by_cases ha : (hs.any fun p => decide (p.1 = lowerStr k)) = true
  · rw [if_pos ha, if_pos ha, List.map_cons, if_neg hq]
  · rw [if_neg ha, if_neg ha, List.cons_append]

theorem headersSet_find? {hs : List (String × String)} (hkl : KeysLower hs) (k v k' : String) :
    (headersSet hs k v).find? (fun p => lowerStr p.1 = lowerStr k') =
      if lowerStr k' = lowerStr k then some (lowerStr k, v)
      else hs.find? (fun p => lowerStr p.1 = lowerStr k') := by
  induction hs with
  | nil =>
    simp only [headersSet, List.any_nil, Bool.false_eq_true, if_false, List.nil_append]
    by_cases hc : lowerStr k' = lowerStr k
    · rw [if_pos hc, List.find?_cons_of_pos _ (by simp [lowerStr_idem, hc])]
    · rw [if_neg hc, List.find?_cons_of_neg _ (by
        simp only [decide_eq_true_eq, lowerStr_idem]
        exact fun h => hc h.symm)]
  | cons q hs ih =>
    have hkltail : KeysLower hs := fun p hp => hkl p (List.mem_cons_of_mem q hp)
    by_cases hq : q.1 = lowerStr k
    · have hany : ((q :: hs).any fun p => decide (p.1 = lowerStr k)) = true := by
        simp [List.any_cons, hq]
      have hset : headersSet (q :: hs) k v =
          (lowerStr k, v) :: hs.map (fun p => if p.1 = lowerStr k then (lowerStr k, v) else p) := by
        simp only [headersSet]
        rw [if_pos hany, List.map_cons, if_pos hq]
      rw [hset]
      by_cases hc : lowerStr k' = lowerStr k
      · rw [if_pos hc, List.find?_cons_of_pos _ (by simp [lowerStr_idem, hc])]
      · rw [if_neg hc,
          List.find?_cons_of_neg _ (by
            simp only [decide_eq_true_eq, lowerStr_idem]
            exact fun h => hc h.symm),
          find?_map_setEntry hs k v k' hc,
          List.find?_cons_of_neg _ (by
            simp only [decide_eq_true_eq, hq, lowerStr_idem]
            exact fun h => hc h.symm)]
    · rw [headersSet_cons_ne v hq]
      by_cases hc : lowerStr k' = lowerStr k
      · have hpredq : ¬(lowerStr q.1 = lowerStr k') := by
          intro h
          rw [hc] at h
          exact hq ((hkl q (List.mem_cons_self q hs)).trans h)
        rw [List.find?_cons_of_neg _ (by simpa using hpredq), ih hkltail, if_pos hc, if_pos hc]
      · rw [if_neg hc]
        by_cases hpq : lowerStr q.1 = lowerStr k'
        · rw [List.find?_cons_of_pos _ (by simpa using hpq),
            List.find?_cons_of_pos _ (by simpa using hpq)]
        · rw [List.find?_cons_of_neg _ (by simpa using hpq),
            List.find?_cons_of_neg _ (by simpa using hpq), ih hkltail, if_neg hc]

theorem headersGet_headersSet {hs : List (String × String)} (hkl : KeysLower hs)
    (k v k' : String) :
    headersGet (headersSet hs k v) k' =
      if lowerStr k' = lowerStr k then some v else headersGet hs k' := by
  unfold headersGet
  rw [headersSet_find? hkl]
  by_cases hc : lowerStr k' = lowerStr k
  · rw [if_pos hc, if_pos hc]
    rfl
  · rw [if_neg hc, if_neg hc]

theorem lastAssocCI_cons (p : String × String) (l : List (String × String)) (k : String) :
    lastAssocCI (p :: l) k =
      match lastAssocCI l k with
      | some v => some v
      | none => if lowerStr p.1 = lowerStr k then some p.2 else none := by
  unfold lastAssocCI
  rw [List.reverse_cons, List.find?_append]
  cases h : l.reverse.find? (fun q => lowerStr q.1 = lowerStr k) with
  | some q => simp [Option.or]
  | none =>
    by_cases hp : lowerStr p.1 = lowerStr k
    · rw [List.find?_cons_of_pos _ (by simpa using hp)]
      simp [Option.or, hp]
    · rw [List.find?_cons_of_neg _ (by simpa using hp)]
      simp [Option.or, hp]

theorem headersGet_foldlSet (l : List (String × String)) :
    ∀ hs : List (String × String), KeysLower hs → ∀ k : String,
      headersGet (l.foldl (fun acc p => headersSet acc p.1 p.2) hs) k =
        match lastAssocCI l k with
        | some v => some v
        | none => headersGet hs k := by
  induction l with
  | nil =>
    intro hs _ k
    rfl
  | cons p l ih =>
    intro hs hkl k
    rw [List.foldl_cons, ih (headersSet hs p.1 p.2) (keysLower_headersSet hkl p.1 p.2) k,
      lastAssocCI_cons]
    cases hl : lastAssocCI l k with
    | some v => rfl
    | none =>
      simp only []
      rw [headersGet_headersSet hkl]
      by_cases hc : lowerStr k = lowerStr p.1
      · rw [if_pos hc, if_pos hc.symm]
      · rw [if_neg hc, if_neg (fun h => hc h.symm)]

theorem keysLower_forcedHeaders (cfg : ResolvedClientConfig) :
    KeysLower (forcedHeaders cfg) :=
  keysLower_headersSet
    (keysLower_headersSet
      (keysLower_foldlSet cfg.headers _ (keysLower_headersSet keysLower_nil _ _)) _ _) _ _

theorem keysLower_uaHeaders (cfg : ResolvedClientConfig) (nav : Bool) :
    KeysLower (uaHeaders cfg nav) := by
  unfold uaHeaders
  cases cfg.userAgent with
  | none => exact keysLower_forcedHeaders cfg
  | some ua =>
    dsimp only
    split_ifs with h
    · exact keysLower_headersSet (keysLower_forcedHeaders cfg) _ _
    · exact keysLower_forcedHeaders cfg

theorem buildHeaders_some_eq (cfg : ResolvedClientConfig) (nav : Bool)
    (ov : List (String × String)) :
    buildHeaders cfg nav (some ov) =
      ov.foldl (fun acc p => headersSet acc p.1 p.2) (uaHeaders cfg nav) := rfl

theorem headersGet_forcedHeaders (cfg : ResolvedClientConfig) (k : String) :
    headersGet (forcedHeaders cfg) k =
      if lowerStr k = "authorization" then some ("Bearer " ++ cfg.apiKey)
      else if lowerStr k = "x-mailrify-client" then some "mailrify"
      else
        match lastAssocCI cfg.headers k with
        | some v => some v
        | none => if lowerStr k = "accept" then some "application/json" else none := by
  have e1 : lowerStr "Accept" = "accept" := by decide
  have e2 : lowerStr "authorization" = "authorization" := by decide
  have e3 : lowerStr "x-mailrify-client" = "x-mailrify-client" := by decide
  unfold forcedHeaders
  rw [headersGet_headersSet
      (keysLower_headersSet
        (keysLower_foldlSet cfg.headers _ (keysLower_headersSet keysLower_nil _ _)) _ _),
    headersGet_headersSet
      (keysLower_foldlSet cfg.headers _ (keysLower_headersSet keysLower_nil _ _)),
    headersGet_foldlSet cfg.headers _ (keysLower_headersSet keysLower_nil _ _) k,
    headersGet_headersSet keysLower_nil, e1, e2, e3]
  by_cases hX : lowerStr k = "x-mailrify-client"
  · have hA : lowerStr k ≠ "authorization" := by
      rw [hX]
      decide
    rw [if_pos hX, if_neg hA, if_pos hX]
  · rw [if_neg hX]
    by_cases hA : lowerStr k = "authorization"
    · rw [if_pos hA, if_pos hA]
    · rw [if_neg hA, if_neg hA, if_neg hX]
      cases hl : lastAssocCI cfg.headers k with
      | some v => rfl
      | none =>
        simp only []
        by_cases hAc : lowerStr k = "accept"
        · rw [if_pos hAc, if_pos hAc]
        · rw [if_neg hAc, if_neg hAc]
          rfl

/-- Claim C6: for every key other than the user-agent header (which the
claim does not mention), the header value sent to the transport follows the
precedence defaults < static extra headers < forced authorization and
client-identity headers < per-call overrides, under case-insensitive keys:
the per-call override wins when present; otherwise the forced
`Bearer <credential>` authorization and `x-mailrify-client` values win;
otherwise the static extra header value; otherwise the default Accept. -/
theorem c6_header_precedence :
    ∀ (cfg : ResolvedClientConfig) (navigatorDefined : Bool)
      (ov : List (String × String)) (k : String),
      lowerStr k ≠ "user-agent" →
      headersGet (buildHeaders cfg navigatorDefined (some ov)) k =
        match lastAssocCI ov k with
        | some v => some v
        | none =>
          if lowerStr k = "authorization" then some ("Bearer " ++ cfg.apiKey)
          else if lowerStr k = "x-mailrify-client" then some "mailrify"
          else
            match lastAssocCI cfg.headers k with
            | some v => some v
            | none => if lowerStr k = "accept" then some "application/json" else none := by
  intro cfg nav ov k hua
  rw [buildHeaders_some_eq, headersGet_foldlSet ov (uaHeaders cfg nav)
    (keysLower_uaHeaders cfg nav) k]
  cases hov : lastAssocCI ov k with
  | some v => rfl
  | none =>
    simp only []
    have hstep : headersGet (uaHeaders cfg nav) k = headersGet (forcedHeaders cfg) k := by
      unfold uaHeaders
      cases cfg.userAgent with
      | none => rfl
      | some ua =>
        dsimp only
        split_ifs with hif
        · rw [headersGet_headersSet (keysLower_forcedHeaders cfg),
            (by decide : lowerStr "user-agent" = "user-agent"), if_neg hua]
        · rfl
    rw [hstep, headersGet_forcedHeaders]

theorem c6_header_precedence_witness :
    headersGet
        (buildHeaders
          { apiKey := "KEY", baseUrl := "https://app.mailrify.com/api", timeout := .num 30000,
            headers := [("Accept", "text/plain"), ("authorization", "static-auth")],
            debug := false, maxRetries := .num 2, retryDelayMs := .num 500, userAgent := none }
          false (some [("ACCEPT", "application/xml")])) "accept" =
      some "application/xml" ∧
    headersGet
        (buildHeaders
          { apiKey := "KEY", baseUrl := "https://app.mailrify.com/api", timeout := .num 30000,
            headers := [("Accept", "text/plain"), ("authorization", "static-auth")],
            debug := false, maxRetries := .num 2, retryDelayMs := .num 500, userAgent := none }
          false (some [("ACCEPT", "application/xml")])) "Authorization" =
      some "Bearer KEY" := by
  constructor
  · rw [c6_header_precedence _ false [("ACCEPT", "application/xml")] "accept" (by decide)]
    decide
  · rw [c6_header_precedence _ false [("ACCEPT", "application/xml")] "Authorization" (by decide)]
    decide

theorem collapseSlashes_head : ∀ (l : List Char) (c : Char),
    ∃ t, collapseSlashes (c :: l) = c :: t := by
  intro l
  induction l with
  | nil => intro c; exact ⟨[], rfl⟩
  | cons c2 rest ih =>
    intro c
    by_cases h : (c = '/' && c2 = '/') = true
    · have hc : c = '/' := by
        have := (Bool.and_eq_true _ _).mp h
        simpa using this.1
      have hc2 : c2 = '/' := by
        have := (Bool.and_eq_true _ _).mp h
        simpa using this.2
      obtain ⟨t, ht⟩ := ih c2
      refine ⟨t, ?_⟩
      show (if c = '/' && c2 = '/' then collapseSlashes (c2 :: rest)
        else c :: collapseSlashes (c2 :: rest)) = c :: t
      rw [if_pos h, ht, hc, hc2]
    · refine ⟨collapseSlashes (c2 :: rest), ?_⟩
      show (if c = '/' && c2 = '/' then collapseSlashes (c2 :: rest)
        else c :: collapseSlashes (c2 :: rest)) = c :: collapseSlashes (c2 :: rest)
      rw [if_neg h]

theorem noDoubleSlash_collapse : ∀ l : List Char, noDoubleSlash (collapseSlashes l) = true := by
  intro l
  induction l with
  | nil => rfl
  | cons c rest ih =>
    cases rest with
    | nil => rfl
    | cons c2 rest2 =>
      by_cases h : (c = '/' && c2 = '/') = true
      · show noDoubleSlash (if c = '/' && c2 = '/' then collapseSlashes (c2 :: rest2)
          else c :: collapseSlashes (c2 :: rest2)) = true
        rw [if_pos h]
        exact ih
      · show noDoubleSlash (if c = '/' && c2 = '/' then collapseSlashes (c2 :: rest2)
          else c :: collapseSlashes (c2 :: rest2)) = true
        rw [if_neg h]
        obtain ⟨t, ht⟩ := collapseSlashes_head rest2 c2
        rw [ht]
        have hrest : noDoubleSlash (c2 :: t) = true := by
          rw [← ht]
          exact ih
        have hb : (c = '/' && c2 = '/') = false := by
          simpa using h
        show (!(c = '/' && c2 = '/') && noDoubleSlash (c2 :: t)) = true
        rw [hb, hrest]
        rfl

theorem noDoubleSlashStr_collapse (s : String) :
    noDoubleSlashStr (collapseSlashesStr s) = true := by
  unfold noDoubleSlashStr collapseSlashesStr
  exact noDoubleSlash_collapse s.data

theorem addQueryEntry_arr_eq (k : String) : ∀ (items : List JSScalar)
    (ps : List (String × String)),
    addQueryEntry ps k (.arr items) =
      ps ++ (items.filter queryItemKept).map (fun it => (k, jsScalarToString it)) := by
  intro items
  induction items with
  | nil => intro ps; simp [addQueryEntry]
  | cons it rest ih =>
    intro ps
    have hstep : addQueryEntry ps k (.arr (it :: rest)) =
        addQueryEntry
          (match it with
            | .undef => ps
            | .nullv => ps
            | _ => spAppend ps k (jsScalarToString it)) k (.arr rest) := by
      cases it <;> rfl
    rw [hstep]
    cases it <;>
      simp [ih, queryItemKept, spAppend, List.filter_cons, List.append_assoc]

/-- Claim C7: the absolute target address joins base path and relative
path collapsing duplicate slashes, discards any query or fragment already
on the base, and appends query parameters in stable insertion order:
sequence values become a repeated key with null/undefined elements
skipped, scalar values are `String()`-coerced and set as a single value,
and keys whose value is null or undefined are omitted; the query
`page = 2, values = [a, b]` produces `?page=2&values=a&values=b`. -/
theorem c7_url_building :
    (∀ (base : URL) (path : String) (query : Option (List (String × JSValue)))
        (sp : List (String × String)) (hsh : String),
      buildUrl { base with searchParams := sp, hash := hsh } path query =
        buildUrl base path query) ∧
    (∀ (base : URL) (path : String) (query : Option (List (String × JSValue))),
      (buildUrl base path query).hash = "" ∧
      noDoubleSlashStr (buildUrl base path query).pathname = true) ∧
    (∀ (ps : List (String × String)) (k : String),
      addQueryEntry ps k (.scalar .nullv) = ps ∧
      addQueryEntry ps k (.scalar .undef) = ps) ∧
    (∀ (ps : List (String × String)) (k : String) (items : List JSScalar),
      addQueryEntry ps k (.arr items) =
        ps ++ (items.filter queryItemKept).map (fun it => (k, jsScalarToString it))) ∧
    (∀ (ps : List (String × String)) (k : String) (n : ℤ),
      addQueryEntry ps k (.scalar (.int n)) = spSet ps k (toString n)) ∧
    (∀ (ps : List (String × String)) (k s : String),
      addQueryEntry ps k (.scalar (.str s)) = spSet ps k s) ∧
    serializeSearch
        (buildUrl ⟨"https://app.mailrify.com", "/api", [], ""⟩ "/v1/items"
          (some [("page", .scalar (.int 2)),
            ("values", .arr [.str "a", .str "b"])])).searchParams =
      "?page=2&values=a&values=b" := by
  refine ⟨fun base path query sp hsh => rfl, fun base path query => ⟨rfl, ?_⟩,
    fun ps k => ⟨rfl, rfl⟩, fun ps k items => addQueryEntry_arr_eq k items ps,
    fun ps k n => rfl, fun ps k s => rfl, rfl⟩
  exact noDoubleSlashStr_collapse _

end Mailrify
